import Mathlib

/-!
Verification development for the multi-frame spatial analysis engine
(backend/app/services/multiframe_analyzer.py).

The Python module is shallowly embedded below: Python floats become exact
rationals, Python dicts for detections become structures, and the two
accepted bounding-box representations (ordered 4-element list, or a labeled
structure with keys x1, y1, x2, y2) become the two constructors of an
inductive type.  Detection dicts produced upstream may lack a class_id key
(read with a defaulting get), so class_id is an Option.  The possibility of
a missing class_name key (a KeyError at the dict access in
match_detections_across_frames) is modeled separately by a RawDetection
type and an Except-valued pipeline.
-/

namespace MultiFrame

/-- Analyzer configuration, fixed at construction (constructor defaults
iou_threshold = 0.3, confidence_boost = 0.15, min_frames_for_validation = 2). -/
structure Config where
  iou_threshold : ℚ
  confidence_boost : ℚ
  min_frames_for_validation : ℕ
deriving DecidableEq

/-- Default constructor arguments of MultiFrameAnalyzer. -/
def defaultConfig : Config :=
  { iou_threshold := 3 / 10
    confidence_boost := 3 / 20
    min_frames_for_validation := 2 }

/-- A bounding box in either accepted representation: an ordered 4-element
list, or a labeled dict with keys x1, y1, x2, y2.  Both carry the four
corner coordinates. -/
inductive Bbox where
  | listBox (x1 y1 x2 y2 : ℚ)
  | dictBox (x1 y1 x2 y2 : ℚ)
deriving DecidableEq

instance : Inhabited Bbox := ⟨Bbox.listBox 0 0 0 0⟩

/-- First x coordinate of a box, in either representation. -/
def Bbox.x1 : Bbox → ℚ
  | .listBox a _ _ _ => a
  | .dictBox a _ _ _ => a

/-- First y coordinate of a box, in either representation. -/
def Bbox.y1 : Bbox → ℚ
  | .listBox _ b _ _ => b
  | .dictBox _ b _ _ => b

/-- Second x coordinate of a box, in either representation. -/
def Bbox.x2 : Bbox → ℚ
  | .listBox _ _ c _ => c
  | .dictBox _ _ c _ => c

/-- Second y coordinate of a box, in either representation. -/
def Bbox.y2 : Bbox → ℚ
  | .listBox _ _ _ d => d
  | .dictBox _ _ _ d => d

/-- Core IoU computation of calculate_iou after the two boxes have been
destructured into their corner coordinates (lines 59 to 76 of the source):
intersection corners by max and min, early return 0 for negative
intersection extents, early return 0 for a zero union, else the ratio. -/
def iouCore (x1_1 y1_1 x2_1 y2_1 x1_2 y1_2 x2_2 y2_2 : ℚ) : ℚ :=
  let x1_i := max x1_1 x1_2
  let y1_i := max y1_1 y1_2
  let x2_i := min x2_1 x2_2
  let y2_i := min y2_1 y2_2
  if x2_i < x1_i ∨ y2_i < y1_i then 0
  else
    let intersectionArea := (x2_i - x1_i) * (y2_i - y1_i)
    let area1 := (x2_1 - x1_1) * (y2_1 - y1_1)
    let area2 := (x2_2 - x1_2) * (y2_2 - y1_2)
    let unionArea := area1 + area2 - intersectionArea
    if unionArea = 0 then 0 else intersectionArea / unionArea

/-- calculate_iou: both branches of the isinstance test extract the same
four coordinates, so extraction is by the representation-transparent
accessors. -/
def calculate_iou (bbox1 bbox2 : Bbox) : ℚ :=
  iouCore bbox1.x1 bbox1.y1 bbox1.x2 bbox1.y2 bbox2.x1 bbox2.y1 bbox2.x2 bbox2.y2

/-- A well-formed detection dict as consumed by the clustering pipeline:
class_id may be absent (aggregation reads it with get and default 0), the
other fields are required. -/
structure Detection where
  class_id : Option ℤ
  class_name : String
  confidence : ℚ
  bbox : Bbox
deriving DecidableEq

instance : Inhabited Detection :=
  ⟨{ class_id := none, class_name := "", confidence := 0, bbox := default }⟩

/-- A detection tagged with its originating frame index, as built by the
dict merge in match_detections_across_frames (line 137). -/
structure FrameDet where
  det : Detection
  frame_idx : ℕ
deriving DecidableEq

instance : Inhabited FrameDet := ⟨{ det := default, frame_idx := 0 }⟩

/-- All detections of all frames, each tagged with its frame index, in
frame-major order (the iteration order of lines 130 to 138). -/
def flattenFrames (fds : List (List Detection)) : List FrameDet :=
  (fds.enum.map (fun p => p.2.map (fun d => FrameDet.mk d p.1))).flatten

/-- Keys of the class_groups dict in insertion order: first occurrence
order of class names in frame-major traversal. -/
def classKeys (l : List FrameDet) : List String :=
  l.foldl (fun ks d => if d.det.class_name ∈ ks then ks else ks ++ [d.det.class_name]) []

/-- The per-class group list for one key of the class_groups dict:
detections of that class, in frame-major order. -/
def classGroup (l : List FrameDet) (s : String) : List FrameDet :=
  l.filter (fun d => d.det.class_name == s)

/-- Admission test of the inner scan of _cluster_detections (lines 175 to
184) for one candidate, indexed pair jd, against the seed of the open
cluster: not already used, a different frame index than the seed, and IoU
against the seed at least the threshold.  The used set is the one at seed
time; this is equivalent to the growing used set of the source because the
enumeration indices are distinct, so no candidate can be marked used by an
earlier candidate of the same scan. -/
def addCond (cfg : Config) (seed : FrameDet) (used : List ℕ) (jd : ℕ × FrameDet) : Bool :=
  decide (jd.1 ∉ used) && decide (jd.2.frame_idx ≠ seed.frame_idx) &&
    decide (cfg.iou_threshold ≤ calculate_iou seed.det.bbox jd.2.det.bbox)

/-- The greedy clustering loop of _cluster_detections over the indexed
detection list: skip used seeds; otherwise open a cluster with the seed,
absorb all later unused detections passing addCond, and mark them used.
The inner scan only looks at later detections because every earlier index
is already used (the source also skips j less than or equal to i). -/
def clusterGo (cfg : Config) : List (ℕ × FrameDet) → List ℕ → List (List (ℕ × FrameDet))
  | [], _ => []
  | (i, d) :: rest, used =>
    if i ∈ used then clusterGo cfg rest used
    else
      let adds := rest.filter (addCond cfg d used)
      ((i, d) :: adds) :: clusterGo cfg rest (used ++ i :: adds.map Prod.fst)

/-- _cluster_detections on the enumerated input, keeping indices. -/
def cluster_detections_idx (cfg : Config) (dets : List FrameDet) : List (List (ℕ × FrameDet)) :=
  clusterGo cfg dets.enum []

/-- _cluster_detections: the returned clusters hold the detections
themselves (the early return for an empty input also yields []). -/
def cluster_detections (cfg : Config) (dets : List FrameDet) : List (List FrameDet) :=
  (cluster_detections_idx cfg dets).map (List.map Prod.snd)

/-- The bbox of a detection as a 4-element coordinate list, as built by
lines 200 to 205 (either branch produces the same list). -/
def bboxAsList (b : Bbox) : List ℚ :=
  match b with
  | .listBox a b2 c d => [a, b2, c, d]
  | .dictBox a b2 c d => [a, b2, c, d]

/-- np.mean of a list of rationals: sum divided by length. -/
def npMean (l : List ℚ) : ℚ := l.sum / l.length

/-- The validation record attached to an aggregated detection. -/
structure Validation where
  validated : Bool
  num_frames : ℕ
  frame_indices : List ℕ
  confidence_boost : ℚ
  individual_confidences : List ℚ
deriving DecidableEq

/-- The aggregated detection dict produced by _aggregate_cluster. -/
structure ValidatedDetection where
  class_id : ℤ
  class_name : String
  confidence : ℚ
  original_confidence : ℚ
  bbox : List ℚ
  bbox_center : List ℚ
  bbox_area : ℚ
  validation : Validation
deriving DecidableEq

/-- _aggregate_cluster (lines 190 to 241): coordinate-wise mean box,
derived center and area, mean confidence boosted and clamped at 1, first
member class fields (class_id defaulting to 0 when absent), and the
validation record in cluster order. -/
def aggregate_cluster (cfg : Config) (cluster : List FrameDet) : ValidatedDetection :=
  let bbox_coords := cluster.map (fun d => bboxAsList d.det.bbox)
  let avg_bbox : List ℚ :=
    [ npMean (bbox_coords.map (fun b => b.getD 0 0))
    , npMean (bbox_coords.map (fun b => b.getD 1 0))
    , npMean (bbox_coords.map (fun b => b.getD 2 0))
    , npMean (bbox_coords.map (fun b => b.getD 3 0)) ]
  let avg_center : List ℚ :=
    [ (avg_bbox.getD 0 0 + avg_bbox.getD 2 0) / 2
    , (avg_bbox.getD 1 0 + avg_bbox.getD 3 0) / 2 ]
  let avg_area := (avg_bbox.getD 2 0 - avg_bbox.getD 0 0) * (avg_bbox.getD 3 0 - avg_bbox.getD 1 0)
  let avg_confidence := npMean (cluster.map (fun d => d.det.confidence))
  let boosted_confidence := min 1 (avg_confidence + cfg.confidence_boost)
  { class_id := (cluster.headI.det.class_id).getD 0
    class_name := cluster.headI.det.class_name
    confidence := boosted_confidence
    original_confidence := avg_confidence
    bbox := avg_bbox
    bbox_center := avg_center
    bbox_area := avg_area
    validation :=
      { validated := true
        num_frames := cluster.length
        frame_indices := cluster.map (fun d => d.frame_idx)
        confidence_boost := cfg.confidence_boost
        individual_confidences := cluster.map (fun d => d.det.confidence) } }

/-- The non-degraded part of match_detections_across_frames (lines 128 to
150): partition by class in key insertion order, cluster each group, and
aggregate every cluster at least min_frames_for_validation large. -/
def validated_pipeline (cfg : Config) (fds : List (List Detection)) : List ValidatedDetection :=
  let flat := flattenFrames fds
  ((classKeys flat).map (fun s =>
    ((cluster_detections cfg (classGroup flat s)).filter
      (fun c => decide (cfg.min_frames_for_validation ≤ c.length))).map
      (fun c => aggregate_cluster cfg c))).flatten

/-- An element of the list returned by match_detections_across_frames: in
degraded mode the raw first-frame detection dicts (which carry no
validation record), otherwise aggregated dicts. -/
inductive OutDet where
  | raw (d : Detection)
  | validated (v : ValidatedDetection)
deriving DecidableEq

/-- class_name of either kind of output dict. -/
def OutDet.class_name : OutDet → String
  | .raw d => d.class_name
  | .validated v => v.class_name

/-- confidence of either kind of output dict. -/
def OutDet.confidence : OutDet → ℚ
  | .raw d => d.confidence
  | .validated v => v.confidence

/-- The chained defaulting reads det.get validation then get num_frames
used by handle_partial_occlusions; a raw dict has no validation key, so it
reads 0. -/
def OutDet.validation_num_frames : OutDet → ℕ
  | .raw _ => 0
  | .validated v => v.validation.num_frames

/-- match_detections_across_frames (lines 111 to 150): degraded
pass-through of the first frame (or []) when the frame list is empty or
shorter than min_frames_for_validation, else the clustering pipeline. -/
def match_detections_across_frames (cfg : Config) (fds : List (List Detection)) : List OutDet :=
  if fds = [] ∨ fds.length < cfg.min_frames_for_validation then
    (fds.headD []).map OutDet.raw
  else
    (validated_pipeline cfg fds).map OutDet.validated

/-- The statistics record of analyze_frames; detections_by_class is the
insertion-ordered dict of per-class counts, kept as an association list. -/
structure Statistics where
  num_frames : ℕ
  total_detections_before : ℕ
  total_detections_after : ℕ
  false_positive_reduction_rate : ℚ
  detections_by_class : List (String × ℕ)
  avg_confidence : ℚ
deriving DecidableEq

/-- The result bundle of analyze_frames, generic in the opaque per-frame
metadata records. -/
structure AnalysisResult (μ : Type) where
  validated_detections : List OutDet
  statistics : Statistics
  frame_metadata : List μ

/-- One step of the class_counts dict update: increment the entry of the
key in place, or append a fresh entry with count 1. -/
def bumpCount : List (String × ℕ) → String → List (String × ℕ)
  | [], s => [(s, 1)]
  | (t, n) :: rest, s => if t = s then (t, n + 1) :: rest else (t, n) :: bumpCount rest s

/-- analyze_frames (lines 243 to 284): run the matcher, count detections
before and after, special-case the reduction rate and the mean confidence
when their denominators are empty, fold the per-class counts, and echo the
metadata (None becomes []). -/
def analyze_frames {μ : Type} (cfg : Config) (fds : List (List Detection))
    (frame_metadata : Option (List μ)) : AnalysisResult μ :=
  let validated_detections := match_detections_across_frames cfg fds
  let total_detections_before := (fds.map List.length).sum
  let total_detections_after := validated_detections.length
  let reduction_rate : ℚ :=
    if 0 < total_detections_before then
      ((total_detections_before : ℚ) - (total_detections_after : ℚ)) / (total_detections_before : ℚ)
    else 0
  let class_counts := validated_detections.foldl (fun acc det => bumpCount acc det.class_name) []
  { validated_detections := validated_detections
    statistics :=
      { num_frames := fds.length
        total_detections_before := total_detections_before
        total_detections_after := total_detections_after
        false_positive_reduction_rate := reduction_rate
        detections_by_class := class_counts
        avg_confidence :=
          if validated_detections = [] then 0
          else npMean (validated_detections.map OutDet.confidence) }
    frame_metadata := frame_metadata.getD [] }

/-- handle_partial_occlusions (lines 303 to 325): run the matcher and keep
only outputs whose validation record reports at least 2 frames. -/
def handle_partial_occlusions (cfg : Config) (fds : List (List Detection)) : List OutDet :=
  (match_detections_across_frames cfg fds).filter
    (fun det => decide (2 ≤ det.validation_num_frames))

/-- An upstream detection dict before field validation: the class_name key
may be missing, in which case the dict access at line 132 raises KeyError. -/
structure RawDetection where
  class_id : Option ℤ
  class_name : Option String
  confidence : ℚ
  bbox : Bbox
deriving DecidableEq

/-- The dict access det bracket class_name at line 132: a KeyError (the
error of the Except) when the key is absent. -/
def requireClassName (r : RawDetection) : Except Unit Detection :=
  match r.class_name with
  | none => .error ()
  | some s => .ok { class_id := r.class_id, class_name := s, confidence := r.confidence, bbox := r.bbox }

/-- Left-to-right traversal of one frame through requireClassName; the
first missing key aborts. -/
def requireFrame : List RawDetection → Except Unit (List Detection)
  | [] => .ok []
  | r :: rs =>
    match requireClassName r with
    | .error e => .error e
    | .ok d =>
      match requireFrame rs with
      | .error e => .error e
      | .ok ds => .ok (d :: ds)

/-- Frame-major traversal of all frames through requireFrame. -/
def requireFrames : List (List RawDetection) → Except Unit (List (List Detection))
  | [] => .ok []
  | f :: fs =>
    match requireFrame f with
    | .error e => .error e
    | .ok df =>
      match requireFrames fs with
      | .error e => .error e
      | .ok dfs => .ok (df :: dfs)

/-- Output element of the Except-valued matcher: the degraded branch
passes raw dicts through without ever touching their keys. -/
inductive OutDetE where
  | raw (r : RawDetection)
  | validated (v : ValidatedDetection)
deriving DecidableEq

/-- match_detections_across_frames over possibly malformed upstream dicts:
the degraded branch returns the first frame unread; otherwise the
partitioning loop reads every class_name key in frame-major order and a
missing key aborts the whole call (the KeyError propagates out of
match_detections_across_frames and analyze_frames uncaught). -/
def match_detections_E (cfg : Config) (fds : List (List RawDetection)) :
    Except Unit (List OutDetE) :=
  if fds = [] ∨ fds.length < cfg.min_frames_for_validation then
    .ok ((fds.headD []).map OutDetE.raw)
  else
    match requireFrames fds with
    | .error e => .error e
    | .ok dfs => .ok ((validated_pipeline cfg dfs).map OutDetE.validated)

end MultiFrame

namespace MultiFrame

/-- Sample pothole detection used by concrete witnesses. -/
def dPothole1 : Detection :=
  { class_id := some 0, class_name := "pothole", confidence := 1/2, bbox := .listBox 0 0 10 10 }

/-- Second sample pothole detection, in the labeled-box representation,
overlapping dPothole1 with IoU 81 over 119. -/
def dPothole2 : Detection :=
  { class_id := some 0, class_name := "pothole", confidence := 7/10, bbox := .dictBox 1 1 11 11 }

/-- dPothole1 tagged with frame index 0. -/
def fd1 : FrameDet := { det := dPothole1, frame_idx := 0 }

/-- dPothole2 tagged with frame index 1. -/
def fd2 : FrameDet := { det := dPothole2, frame_idx := 1 }

/-- A two-member cluster whose mean confidence plus the default boost
exceeds 1, exercising the clamp. -/
def clusterHigh : List FrameDet :=
  [ { det := { class_id := some 0, class_name := "pothole", confidence := 19/20,
               bbox := .listBox 0 0 10 10 }, frame_idx := 0 }
  , { det := { class_id := some 0, class_name := "pothole", confidence := 1,
               bbox := .listBox 0 0 10 10 }, frame_idx := 1 } ]

/-- A well-formed upstream dict. -/
def rawGood : RawDetection :=
  { class_id := some 0, class_name := some "pothole", confidence := 1/2,
    bbox := .listBox 0 0 10 10 }

/-- An upstream dict missing its class_name key. -/
def rawBad : RawDetection :=
  { class_id := some 0, class_name := none, confidence := 1/2,
    bbox := .listBox 0 0 10 10 }

/-- A tagged detection whose dict has no class_id key. -/
def fdNoId : FrameDet :=
  { det := { class_id := none, class_name := "graffiti", confidence := 4/5,
             bbox := .listBox 0 0 4 4 }, frame_idx := 0 }

end MultiFrame

namespace MultiFrame

/-- Every member of every cluster comes from the input list. -/
theorem mem_of_mem_clusterGo (cfg : Config) (l : List (ℕ × FrameDet)) :
    ∀ (used : List ℕ) (c : List (ℕ × FrameDet)), c ∈ clusterGo cfg l used →
      ∀ x ∈ c, x ∈ l := by
  induction l with
  | nil => intro used c hc; simp [clusterGo] at hc
  | cons p rest ih =>
    obtain ⟨i, d⟩ := p
    intro used c hc x hx
    simp only [clusterGo] at hc
    by_cases hiu : i ∈ used
    · rw [if_pos hiu] at hc
      exact List.mem_cons_of_mem _ (ih used c hc x hx)
    · rw [if_neg hiu] at hc
      rcases List.mem_cons.1 hc with h | h
      · subst h
        rcases List.mem_cons.1 hx with h | h
        · exact List.mem_cons.2 (Or.inl h)
        · exact List.mem_cons_of_mem _ (List.mem_of_mem_filter h)
      · exact List.mem_cons_of_mem _ (ih _ c h x hx)

/-- The concatenation of the clusters is a permutation of the unused part
of the input, provided the indices are distinct. -/
theorem clusterGo_flatten_perm (cfg : Config) (l : List (ℕ × FrameDet)) :
    (l.map Prod.fst).Nodup → ∀ (used : List ℕ),
      ((clusterGo cfg l used).flatten).Perm
        (l.filter (fun x => decide (x.1 ∉ used))) := by
  induction l with
  | nil => intro _ used; simp [clusterGo]
  | cons p rest ih =>
    obtain ⟨i, d⟩ := p
    intro hnd used
    rw [List.map_cons, List.nodup_cons] at hnd
    obtain ⟨hi, hrest⟩ := hnd
    simp only [clusterGo]
    by_cases hiu : i ∈ used
    · rw [if_pos hiu]
      simpa [List.filter_cons, hiu] using ih hrest used
    · rw [if_neg hiu]
      rw [List.flatten_cons, List.filter_cons]
      have hikeep : decide ((i, d).1 ∉ used) = true := by simpa using hiu
      rw [hikeep]
      simp only [List.cons_append]
      refine List.Perm.cons _ ?_
      set A : ℕ × FrameDet → Bool := addCond cfg d used with hA
      set P : ℕ × FrameDet → Bool := fun x => decide (x.1 ∉ used) with hP
      set used' : List ℕ := used ++ i :: (rest.filter A).map Prod.fst with husedp
      have ihrest := ih hrest used'
      have hused' : ∀ x ∈ rest, (x.1 ∈ used' ↔ x.1 ∈ used ∨ A x = true) := by
        intro x hx
        have hxi : x.1 ≠ i := by
          intro hcontr
          refine hi ?_
          have : x.1 ∈ rest.map Prod.fst := List.mem_map.2 ⟨x, hx, rfl⟩
          simpa [hcontr] using this
        constructor
        · intro h
          rcases List.mem_append.1 h with h | h
          · exact Or.inl h
          · rcases List.mem_cons.1 h with h | h
            · exact absurd h hxi
            · right
              rcases List.mem_map.1 h with ⟨y, hy, hyx⟩
              have hyr := List.mem_of_mem_filter hy
              have hxy : y = x := List.inj_on_of_nodup_map hrest hyr hx hyx
              exact hxy ▸ (List.mem_filter.1 hy).2
        · intro h
          rcases h with h | h
          · exact List.mem_append.2 (Or.inl h)
          · exact List.mem_append.2 (Or.inr (List.mem_cons.2 (Or.inr
              (List.mem_map.2 ⟨x, List.mem_filter.2 ⟨hx, h⟩, rfl⟩))))
      have hpt : ∀ x ∈ rest, decide (x.1 ∉ used') = (P x && !(A x)) := by
        intro x hx
        have hiff := hused' x hx
        by_cases hxu : x.1 ∈ used
        · have hx' : x.1 ∈ used' := hiff.2 (Or.inl hxu)
          simp [hP, hxu, hx']
        · by_cases hAx : A x = true
          · have hx' : x.1 ∈ used' := hiff.2 (Or.inr hAx)
            simp [hP, hxu, hx', hAx]
          · have hx' : x.1 ∉ used' := fun hc => (hiff.1 hc).elim hxu hAx
            have hAf : A x = false := Bool.eq_false_iff.2 hAx
            simp [hP, hxu, hx', hAf]
      have h1 : rest.filter (fun x => decide (x.1 ∉ used')) =
          rest.filter (fun x => P x && !(A x)) := List.filter_congr hpt
      have hAP : ∀ x : ℕ × FrameDet, (A x && P x) = A x := by
        intro x
        simp only [hA, hP, addCond]
        cases hd : decide (x.1 ∉ used) <;> simp [hd]
      have h2 : List.filter A (List.filter P rest) = List.filter A rest := by
        rw [List.filter_filter]
        exact List.filter_congr (fun x _ => hAP x)
      have h3 : List.filter (fun x => !A x) (List.filter P rest) =
          List.filter (fun x => P x && !(A x)) rest := by
        rw [List.filter_filter]
        refine List.filter_congr (fun x _ => ?_)
        cases hd : P x <;> cases hd2 : A x <;> simp [hd, hd2]
      have hsplit := List.filter_append_perm A (List.filter P rest)
      rw [h2, h3] at hsplit
      refine (List.Perm.append_left (rest.filter A) ihrest).trans ?_
      rw [h1]
      exact hsplit

theorem enum_fst_nodup (dets : List FrameDet) : (dets.enum.map Prod.fst).Nodup := by
  rw [List.enum_map_fst]
  exact List.nodup_range _

theorem clusterGo_flatten_perm_nil (cfg : Config) (dets : List FrameDet) :
    ((cluster_detections_idx cfg dets).flatten).Perm dets.enum := by
  have hperm := clusterGo_flatten_perm cfg dets.enum (enum_fst_nodup dets) []
  have hid : dets.enum.filter (fun x => decide (x.1 ∉ ([] : List ℕ))) = dets.enum := by
    rw [List.filter_eq_self]
    intro a _
    simp
  rw [hid] at hperm
  exact hperm

theorem cluster_detections_flatten_perm (cfg : Config) (dets : List FrameDet) :
    ((cluster_detections cfg dets).flatten).Perm dets := by
  have hperm := (clusterGo_flatten_perm_nil cfg dets).map Prod.snd
  rw [List.enum_map_snd] at hperm
  unfold cluster_detections
  rw [← List.map_flatten]
  exact hperm

theorem cluster_detections_idx_disjoint (cfg : Config) (dets : List FrameDet) :
    (cluster_detections_idx cfg dets).Pairwise (fun c₁ c₂ => ∀ p ∈ c₁, p ∉ c₂) := by
  have hperm := (clusterGo_flatten_perm_nil cfg dets).map Prod.fst
  rw [List.enum_map_fst] at hperm
  have hfst : (((cluster_detections_idx cfg dets).flatten).map Prod.fst).Nodup :=
    (hperm.nodup_iff).2 (List.nodup_range _)
  rw [List.map_flatten] at hfst
  have hnj := List.nodup_flatten.1 hfst
  have hpair := hnj.2
  rw [List.pairwise_map] at hpair
  refine hpair.imp ?_
  intro c₁ c₂ hdisj p hp hp2
  exact hdisj (List.mem_map.2 ⟨p, hp, rfl⟩) (List.mem_map.2 ⟨p, hp2, rfl⟩)

/-- Structure of the cluster at any position of the output: it is seeded,
every non-seed member differs from the seed in frame index and meets the
IoU threshold against the seed, and the seed has the least index among all
detections of this and all later clusters (the ones not yet assigned when
the cluster was opened). -/
theorem clusterGo_seed_min (cfg : Config) (l : List (ℕ × FrameDet)) :
    l.Pairwise (fun a b => a.1 < b.1) →
    ∀ (used : List ℕ) (k : ℕ) (c : List (ℕ × FrameDet)) (cs : List (List (ℕ × FrameDet))),
      (clusterGo cfg l used).drop k = c :: cs →
      ∃ seed tail, c = seed :: tail ∧
        (∀ m ∈ tail, m.2.frame_idx ≠ seed.2.frame_idx ∧
          cfg.iou_threshold ≤ calculate_iou seed.2.det.bbox m.2.det.bbox) ∧
        ∀ x ∈ (c :: cs).flatten, seed.1 ≤ x.1 := by
  induction l with
  | nil =>
    intro _ used k c cs h
    simp [clusterGo] at h
  | cons p rest ih =>
    obtain ⟨i, d⟩ := p
    intro hp used k c cs h
    rw [List.pairwise_cons] at hp
    obtain ⟨hlt, hp'⟩ := hp
    simp only [clusterGo] at h
    by_cases hiu : i ∈ used
    · rw [if_pos hiu] at h
      exact ih hp' used k c cs h
    · rw [if_neg hiu] at h
      cases k with
      | zero =>
        rw [List.drop_zero] at h
        have hc : c = (i, d) :: rest.filter (addCond cfg d used) := (List.cons.injEq _ _ _ _ ▸ h).1.symm
        have hcs : cs = clusterGo cfg rest (used ++ i :: (rest.filter (addCond cfg d used)).map Prod.fst) :=
          (List.cons.injEq _ _ _ _ ▸ h).2.symm
        refine ⟨(i, d), rest.filter (addCond cfg d used), hc, ?_, ?_⟩
        · intro m hm
          have := (List.mem_filter.1 hm).2
          simp only [addCond, Bool.and_eq_true, decide_eq_true_eq] at this
          exact ⟨this.1.2, this.2⟩
        · intro x hx
          rw [List.flatten_cons, List.mem_append] at hx
          rcases hx with hx | hx
          · rw [hc] at hx
            rcases List.mem_cons.1 hx with hx | hx
            · rw [hx]
            · exact le_of_lt (hlt x (List.mem_of_mem_filter hx))
          · rcases List.mem_flatten.1 hx with ⟨c', hc', hxc'⟩
            rw [hcs] at hc'
            exact le_of_lt (hlt x (mem_of_mem_clusterGo cfg rest _ c' hc' x hxc'))
      | succ k =>
        rw [List.drop_succ_cons] at h
        exact ih hp' _ k c cs h

theorem enum_pairwise_lt (dets : List FrameDet) :
    dets.enum.Pairwise (fun a b => a.1 < b.1) := by
  have h := List.pairwise_lt_range dets.length
  rw [← List.enum_map_fst dets, List.pairwise_map] at h
  exact h

theorem mem_validated_pipeline (cfg : Config) (fds : List (List Detection))
    (v : ValidatedDetection) :
    v ∈ validated_pipeline cfg fds ↔
      ∃ s ∈ classKeys (flattenFrames fds),
        ∃ c ∈ cluster_detections cfg (classGroup (flattenFrames fds) s),
          cfg.min_frames_for_validation ≤ c.length ∧ v = aggregate_cluster cfg c := by
  simp only [validated_pipeline]
  constructor
  · intro hv
    rcases List.mem_flatten.1 hv with ⟨blk, hblk, hvblk⟩
    rcases List.mem_map.1 hblk with ⟨s, hs, rfl⟩
    rcases List.mem_map.1 hvblk with ⟨c, hc, rfl⟩
    have hcf := List.mem_filter.1 hc
    exact ⟨s, hs, c, hcf.1, by simpa using hcf.2, rfl⟩
  · rintro ⟨s, hs, c, hc, hlen, rfl⟩
    refine List.mem_flatten.2 ⟨_, List.mem_map.2 ⟨s, hs, rfl⟩, ?_⟩
    exact List.mem_map.2 ⟨c, List.mem_filter.2 ⟨hc, by simpa using hlen⟩, rfl⟩

theorem aggregate_num_frames (cfg : Config) (c : List FrameDet) :
    (aggregate_cluster cfg c).validation.num_frames = c.length := rfl

theorem bumpCount_lookup (t s : String) (acc : List (String × ℕ)) :
    ((bumpCount acc t).lookup s).getD 0 =
      ((acc.lookup s).getD 0) + (if t = s then 1 else 0) := by
  induction acc with
  | nil =>
    by_cases h : t = s
    · subst h; simp [bumpCount, List.lookup]
    · have hb : (s == t) = false := beq_eq_false_iff_ne.2 (Ne.symm h)
      simp [bumpCount, List.lookup, h, hb]
  | cons p rest ih =>
    obtain ⟨u, n⟩ := p
    by_cases hut : u = t
    · subst hut
      by_cases hus : u = s
      · subst hus; simp [bumpCount, List.lookup]
      · have hb : (s == u) = false := beq_eq_false_iff_ne.2 (Ne.symm hus)
        have hts : ¬(u = s) := hus
        simp [bumpCount, List.lookup, hb, hts]
    · by_cases hus : u = s
      · subst hus
        simp [bumpCount, List.lookup, hut, Ne.symm hut]
      · have hb : (s == u) = false := beq_eq_false_iff_ne.2 (Ne.symm hus)
        simp [bumpCount, List.lookup, hut, hb, ih]

theorem countsFold_lookup (s : String) (l : List OutDet) :
    ∀ acc : List (String × ℕ),
      (((l.foldl (fun acc det => bumpCount acc det.class_name) acc)).lookup s).getD 0 =
        ((acc.lookup s).getD 0) + l.countP (fun d => d.class_name == s) := by
  induction l with
  | nil => intro acc; simp
  | cons d rest ih =>
    intro acc
    rw [List.foldl_cons, ih, bumpCount_lookup, List.countP_cons]
    by_cases h : d.class_name = s
    · simp [h]
      omega
    · simp [h]

theorem requireFrame_error (f : List RawDetection)
    (h : ∃ r ∈ f, r.class_name = none) : requireFrame f = .error () := by
  induction f with
  | nil => simp at h
  | cons r rs ih =>
    rcases h with ⟨r', hr', hnone⟩
    rcases List.mem_cons.1 hr' with h | h
    · subst h
      simp [requireFrame, requireClassName, hnone]
    · cases hcn : r.class_name with
      | none => simp [requireFrame, requireClassName, hcn]
      | some s =>
        have := ih ⟨r', h, hnone⟩
        simp [requireFrame, requireClassName, hcn, this]

theorem requireFrame_ok_no_none (f : List RawDetection) (l : List Detection)
    (h : requireFrame f = .ok l) : ∀ r ∈ f, r.class_name ≠ none := by
  intro r hr hnone
  rw [requireFrame_error f ⟨r, hr, hnone⟩] at h
  exact Except.noConfusion h

theorem requireFrames_error (fds : List (List RawDetection))
    (h : ∃ f ∈ fds, ∃ r ∈ f, r.class_name = none) :
    requireFrames fds = .error () := by
  induction fds with
  | nil => simp at h
  | cons f fs ih =>
    rcases h with ⟨f', hf', r, hr, hnone⟩
    cases hrf : requireFrame f with
    | error e => cases e; simp [requireFrames, hrf]
    | ok df =>
      rcases List.mem_cons.1 hf' with h | h
      · subst h
        exact absurd hnone (requireFrame_ok_no_none _ df hrf r hr)
      · have := ih ⟨f', h, r, hr, hnone⟩
        simp [requireFrames, hrf, this]

/-- Claim C1: for every qualifying cluster (size at least
min_frames_for_validation), the aggregated detection has confidence equal
to min of 1 and the arithmetic mean of the member confidences plus
confidence_boost, clamped so it never exceeds 1, and original_confidence
equal to the unboosted mean. -/
theorem claim_C1 (cfg : Config) (cluster : List FrameDet)
    (_hq : cfg.min_frames_for_validation ≤ cluster.length) :
    (aggregate_cluster cfg cluster).confidence =
      min 1 (npMean (cluster.map (fun d => d.det.confidence)) + cfg.confidence_boost) ∧
    (aggregate_cluster cfg cluster).confidence ≤ 1 ∧
    (aggregate_cluster cfg cluster).original_confidence =
      npMean (cluster.map (fun d => d.det.confidence)) := by
  refine ⟨rfl, ?_, rfl⟩
  exact min_le_left _ _

/-- Witness for claim C1 at a concrete two-member cluster whose mean
confidence 39/40 plus the default boost 3/20 exceeds 1, so the fused
confidence is clamped to 1. -/
theorem claim_C1_witness :
    defaultConfig.min_frames_for_validation ≤ clusterHigh.length ∧
    (aggregate_cluster defaultConfig clusterHigh).confidence = 1 ∧
    (aggregate_cluster defaultConfig clusterHigh).original_confidence = 39/40 := by
  have h := claim_C1 defaultConfig clusterHigh (by norm_num [clusterHigh, defaultConfig])
  refine ⟨by norm_num [clusterHigh, defaultConfig], ?_, ?_⟩
  · rw [h.1]
    norm_num [clusterHigh, npMean, defaultConfig, min_def]
  · rw [h.2.2]
    norm_num [clusterHigh, npMean, defaultConfig]

/-- Claim C2: a Frame Detection Set with fewer entries than
min_frames_for_validation bypasses clustering and yields the first frame
raw detections (the empty list when there are no frames), and
analyze_frames on the empty set returns an empty validated list and a
statistics record with all counts 0 and avg_confidence 0, raising no
error (the embedding is total). -/
theorem claim_C2 :
    (∀ (cfg : Config) (fds : List (List Detection)),
      fds.length < cfg.min_frames_for_validation →
      match_detections_across_frames cfg fds = (fds.headD []).map OutDet.raw) ∧
    (∀ (μ : Type) (cfg : Config),
      analyze_frames cfg ([] : List (List Detection)) (none : Option (List μ)) =
        { validated_detections := []
          statistics :=
            { num_frames := 0
              total_detections_before := 0
              total_detections_after := 0
              false_positive_reduction_rate := 0
              detections_by_class := []
              avg_confidence := 0 }
          frame_metadata := [] }) := by
  constructor
  · intro cfg fds h
    unfold match_detections_across_frames
    rw [if_pos (Or.inr h)]
  · intro μ cfg
    rfl

/-- Witness for claim C2 at a one-frame input under the default
configuration. -/
theorem claim_C2_witness :
    ([[dPothole1]] : List (List Detection)).length < defaultConfig.min_frames_for_validation ∧
    match_detections_across_frames defaultConfig [[dPothole1]] = [OutDet.raw dPothole1] := by
  refine ⟨by norm_num [defaultConfig], ?_⟩
  have h := claim_C2.1 defaultConfig [[dPothole1]] (by norm_num [defaultConfig])
  simpa using h

/-- Claim C3: every cluster at any position of the clusterer output is
seeded by the earliest detection (least enumeration index) not assigned
to an earlier cluster, every other member has a frame index different
from the seed and IoU against the seed bbox at least iou_threshold, and
every validated detection of the matcher comes from a cluster of size at
least min_frames_for_validation. -/
theorem claim_C3 :
    (∀ (cfg : Config) (dets : List FrameDet) (k : ℕ) (c : List (ℕ × FrameDet))
        (cs : List (List (ℕ × FrameDet))),
      (cluster_detections_idx cfg dets).drop k = c :: cs →
      ∃ seed tail, c = seed :: tail ∧
        (∀ m ∈ tail, m.2.frame_idx ≠ seed.2.frame_idx ∧
          cfg.iou_threshold ≤ calculate_iou seed.2.det.bbox m.2.det.bbox) ∧
        ∀ x ∈ (c :: cs).flatten, seed.1 ≤ x.1) ∧
    (∀ (cfg : Config) (fds : List (List Detection)) (v : ValidatedDetection),
      OutDet.validated v ∈ match_detections_across_frames cfg fds →
      ∃ s ∈ classKeys (flattenFrames fds),
        ∃ c ∈ cluster_detections cfg (classGroup (flattenFrames fds) s),
          cfg.min_frames_for_validation ≤ c.length ∧ v = aggregate_cluster cfg c) := by
  constructor
  · intro cfg dets k c cs h
    exact clusterGo_seed_min cfg dets.enum (enum_pairwise_lt dets) [] k c cs h
  · intro cfg fds v hv
    unfold match_detections_across_frames at hv
    by_cases hcond : fds = [] ∨ fds.length < cfg.min_frames_for_validation
    · rw [if_pos hcond] at hv
      rcases List.mem_map.1 hv with ⟨d, _, hd⟩
      exact absurd hd (by simp)
    · rw [if_neg hcond] at hv
      rcases List.mem_map.1 hv with ⟨v', hv', heq⟩
      have hvv : v' = v := by injection heq
      exact hvv ▸ (mem_validated_pipeline cfg fds v').1 hv'

/-- Witness for claim C3 at a concrete two-detection group forming one
two-member cluster. -/
theorem claim_C3_witness :
    (∃ seed tail, ([(0, fd1), (1, fd2)] : List (ℕ × FrameDet)) = seed :: tail ∧
      (∀ m ∈ tail, m.2.frame_idx ≠ seed.2.frame_idx ∧
        defaultConfig.iou_threshold ≤ calculate_iou seed.2.det.bbox m.2.det.bbox) ∧
      ∀ x ∈ ([[(0, fd1), (1, fd2)]] : List (List (ℕ × FrameDet))).flatten, seed.1 ≤ x.1) ∧
    (∃ s ∈ classKeys (flattenFrames [[dPothole1], [dPothole2]]),
      ∃ c ∈ cluster_detections defaultConfig (classGroup (flattenFrames [[dPothole1], [dPothole2]]) s),
        defaultConfig.min_frames_for_validation ≤ c.length ∧
        aggregate_cluster defaultConfig [fd1, fd2] = aggregate_cluster defaultConfig c) := by
  constructor
  · have hdrop : (cluster_detections_idx defaultConfig [fd1, fd2]).drop 0 =
        [(0, fd1), (1, fd2)] :: [] := by
      norm_num [cluster_detections_idx, clusterGo, addCond, List.enum, List.enumFrom,
        defaultConfig, List.filter, calculate_iou, iouCore, fd1, fd2, dPothole1, dPothole2,
        Bbox.x1, Bbox.x2, Bbox.y1, Bbox.y2]
    exact claim_C3.1 defaultConfig [fd1, fd2] 0 [(0, fd1), (1, fd2)] [] hdrop
  · have hmem : OutDet.validated (aggregate_cluster defaultConfig [fd1, fd2]) ∈
        match_detections_across_frames defaultConfig [[dPothole1], [dPothole2]] := by
      have heval : match_detections_across_frames defaultConfig [[dPothole1], [dPothole2]] =
          [OutDet.validated (aggregate_cluster defaultConfig [fd1, fd2])] := by
        norm_num [match_detections_across_frames, defaultConfig, validated_pipeline,
          flattenFrames, List.enum, List.enumFrom, classKeys, classGroup, List.filter,
          cluster_detections, cluster_detections_idx, clusterGo, addCond, calculate_iou,
          iouCore, fd1, fd2, dPothole1, dPothole2, Bbox.x1, Bbox.x2, Bbox.y1, Bbox.y2]
        exact fun h => absurd h (by simp)
      rw [heval]
      exact List.mem_singleton.2 rfl
    exact claim_C3.2 defaultConfig [[dPothole1], [dPothole2]]
      (aggregate_cluster defaultConfig [fd1, fd2]) hmem

theorem bboxAsList_getD_0 (b : Bbox) : (bboxAsList b)[0]?.getD 0 = b.x1 := by
  cases b <;> rfl

theorem bboxAsList_getD_1 (b : Bbox) : (bboxAsList b)[1]?.getD 0 = b.y1 := by
  cases b <;> rfl

theorem bboxAsList_getD_2 (b : Bbox) : (bboxAsList b)[2]?.getD 0 = b.x2 := by
  cases b <;> rfl

theorem bboxAsList_getD_3 (b : Bbox) : (bboxAsList b)[3]?.getD 0 = b.y2 := by
  cases b <;> rfl

/-- Claim C4: the fused bbox is the coordinate-wise unweighted mean of
the member corner coordinates, bbox_center and bbox_area are derived from
that fused box, class_name comes from the first member, and the
validation record lists member frame indices and confidences in cluster
discovery order. -/
theorem claim_C4 (cfg : Config) (first : FrameDet) (rest : List FrameDet) :
    (aggregate_cluster cfg (first :: rest)).bbox =
      [ npMean ((first :: rest).map (fun d => d.det.bbox.x1))
      , npMean ((first :: rest).map (fun d => d.det.bbox.y1))
      , npMean ((first :: rest).map (fun d => d.det.bbox.x2))
      , npMean ((first :: rest).map (fun d => d.det.bbox.y2)) ] ∧
    (aggregate_cluster cfg (first :: rest)).bbox_center =
      [ ((aggregate_cluster cfg (first :: rest)).bbox.getD 0 0 +
          (aggregate_cluster cfg (first :: rest)).bbox.getD 2 0) / 2
      , ((aggregate_cluster cfg (first :: rest)).bbox.getD 1 0 +
          (aggregate_cluster cfg (first :: rest)).bbox.getD 3 0) / 2 ] ∧
    (aggregate_cluster cfg (first :: rest)).bbox_area =
      ((aggregate_cluster cfg (first :: rest)).bbox.getD 2 0 -
        (aggregate_cluster cfg (first :: rest)).bbox.getD 0 0) *
      ((aggregate_cluster cfg (first :: rest)).bbox.getD 3 0 -
        (aggregate_cluster cfg (first :: rest)).bbox.getD 1 0) ∧
    (aggregate_cluster cfg (first :: rest)).class_name = first.det.class_name ∧
    (aggregate_cluster cfg (first :: rest)).validation.frame_indices =
      (first :: rest).map (fun d => d.frame_idx) ∧
    (aggregate_cluster cfg (first :: rest)).validation.individual_confidences =
      (first :: rest).map (fun d => d.det.confidence) := by
  refine ⟨?_, rfl, rfl, rfl, rfl, rfl⟩
  simp [aggregate_cluster, List.map_map, Function.comp_def,
    bboxAsList_getD_0, bboxAsList_getD_1, bboxAsList_getD_2, bboxAsList_getD_3]

/-- Claim C5: false_positive_reduction_rate is (before - after) / before
when before is positive and 0 otherwise (division is total on rationals,
never a fault), detections_by_class maps each class name to the count of
validated detections of that class, and avg_confidence is the mean
confidence of the validated detections, or 0 when there are none. -/
theorem claim_C5 (μ : Type) (cfg : Config) (fds : List (List Detection)) (md : Option (List μ)) :
    ((analyze_frames cfg fds md).statistics.false_positive_reduction_rate =
      if 0 < (analyze_frames cfg fds md).statistics.total_detections_before then
        (((analyze_frames cfg fds md).statistics.total_detections_before : ℚ) -
          ((analyze_frames cfg fds md).statistics.total_detections_after : ℚ)) /
          ((analyze_frames cfg fds md).statistics.total_detections_before : ℚ)
      else 0) ∧
    (∀ s : String,
      (((analyze_frames cfg fds md).statistics.detections_by_class.lookup s).getD 0) =
        (analyze_frames cfg fds md).validated_detections.countP
          (fun d => d.class_name == s)) ∧
    ((analyze_frames cfg fds md).statistics.avg_confidence =
      if (analyze_frames cfg fds md).validated_detections = [] then 0
      else ((analyze_frames cfg fds md).validated_detections.map OutDet.confidence).sum /
        (((analyze_frames cfg fds md).validated_detections.length : ℚ))) := by
  refine ⟨rfl, ?_, ?_⟩
  · intro s
    simp only [analyze_frames]
    simpa using countsFold_lookup s (match_detections_across_frames cfg fds) []
  · simp only [analyze_frames, npMean, List.length_map]

/-- Counterexample to claim C6 as stated: on a single-frame set under
the default configuration, match_detections_across_frames passes the raw
detection through but handle_partial_occlusions drops it, because a raw
dict has no validation record, so the defaulting reads give 0 frames. -/
theorem claim_C6_counterexample :
    handle_partial_occlusions defaultConfig [[dPothole1]] ≠
      match_detections_across_frames defaultConfig [[dPothole1]] := by
  have h1 : match_detections_across_frames defaultConfig [[dPothole1]] = [OutDet.raw dPothole1] := by
    norm_num [match_detections_across_frames, defaultConfig]
  have h2 : handle_partial_occlusions defaultConfig [[dPothole1]] = [] := by
    rw [handle_partial_occlusions, h1]
    simp [OutDet.validation_num_frames]
  rw [h1, h2]
  simp

/-- Claim C6 (amended): with the default configuration the two
pipelines agree on every Frame Detection Set with at least 2 frames; in
degraded mode (fewer frames than min_frames_for_validation) they can
differ even under the default configuration. -/
theorem claim_C6 (fds : List (List Detection)) (h : 2 ≤ fds.length) :
    handle_partial_occlusions defaultConfig fds =
      match_detections_across_frames defaultConfig fds := by
  unfold handle_partial_occlusions
  rw [List.filter_eq_self]
  intro a ha
  unfold match_detections_across_frames at ha
  have hcond : ¬(fds = [] ∨ fds.length < defaultConfig.min_frames_for_validation) := by
    push_neg
    refine ⟨?_, ?_⟩
    · intro hnil
      rw [hnil] at h
      simp at h
    · simpa [defaultConfig] using h
  rw [if_neg hcond] at ha
  rcases List.mem_map.1 ha with ⟨v, hv, rfl⟩
  rcases (mem_validated_pipeline _ _ _).1 hv with ⟨s, _, c, _, hlen, rfl⟩
  simp only [OutDet.validation_num_frames, aggregate_num_frames]
  simpa using hlen

/-- Witness for the amended claim C6 at a concrete two-frame set. -/
theorem claim_C6_witness :
    2 ≤ ([[dPothole1], [dPothole2]] : List (List Detection)).length ∧
    handle_partial_occlusions defaultConfig [[dPothole1], [dPothole2]] =
      match_detections_across_frames defaultConfig [[dPothole1], [dPothole2]] :=
  ⟨by norm_num, claim_C6 [[dPothole1], [dPothole2]] (by norm_num)⟩

/-- Claim C7 (amended): iou of two identical boxes of positive area is
1 (identity of the four coordinates across either representation); iou of
boxes without positive-area overlap is 0; iou is symmetric for all boxes
in either representation. -/
theorem claim_C7 :
    (∀ b1 b2 : Bbox, b1.x1 = b2.x1 → b1.y1 = b2.y1 → b1.x2 = b2.x2 → b1.y2 = b2.y2 →
      b1.x1 < b1.x2 → b1.y1 < b1.y2 → calculate_iou b1 b2 = 1) ∧
    (∀ b1 b2 : Bbox,
      min b1.x2 b2.x2 ≤ max b1.x1 b2.x1 ∨ min b1.y2 b2.y2 ≤ max b1.y1 b2.y1 →
      calculate_iou b1 b2 = 0) ∧
    (∀ b1 b2 : Bbox, calculate_iou b1 b2 = calculate_iou b2 b1) := by
  refine ⟨?_, ?_, ?_⟩
  · intro b1 b2 hx1 hy1 hx2 hy2 hxlt hylt
    simp only [calculate_iou, iouCore, ← hx1, ← hy1, ← hx2, ← hy2, max_self, min_self]
    have harea : 0 < (b1.x2 - b1.x1) * (b1.y2 - b1.y1) :=
      mul_pos (by linarith) (by linarith)
    rw [if_neg (by push_neg; exact ⟨le_of_lt hxlt, le_of_lt hylt⟩)]
    rw [if_neg (by intro h; nlinarith)]
    have hsum : (b1.x2 - b1.x1) * (b1.y2 - b1.y1) + (b1.x2 - b1.x1) * (b1.y2 - b1.y1) -
        (b1.x2 - b1.x1) * (b1.y2 - b1.y1) = (b1.x2 - b1.x1) * (b1.y2 - b1.y1) := by ring
    rw [hsum]
    exact div_self (ne_of_gt harea)
  · intro b1 b2 h
    simp only [calculate_iou, iouCore]
    by_cases hc : min b1.x2 b2.x2 < max b1.x1 b2.x1 ∨ min b1.y2 b2.y2 < max b1.y1 b2.y1
    · rw [if_pos hc]
    · rw [if_neg hc]
      push_neg at hc
      have hzero : (min b1.x2 b2.x2 - max b1.x1 b2.x1) * (min b1.y2 b2.y2 - max b1.y1 b2.y1) = 0 := by
        rcases h with h | h
        · have hx : min b1.x2 b2.x2 - max b1.x1 b2.x1 = 0 := by
            have := hc.1
            linarith
          rw [hx, zero_mul]
        · have hy : min b1.y2 b2.y2 - max b1.y1 b2.y1 = 0 := by
            have := hc.2
            linarith
          rw [hy, mul_zero]
      rw [hzero]
      split_ifs <;> simp
  · intro b1 b2
    simp only [calculate_iou, iouCore]
    rw [max_comm b2.x1 b1.x1, max_comm b2.y1 b1.y1, min_comm b2.x2 b1.x2, min_comm b2.y2 b1.y2,
      add_comm ((b2.x2 - b2.x1) * (b2.y2 - b2.y1)) ((b1.x2 - b1.x1) * (b1.y2 - b1.y1))]

/-- Witness for claim C7 at concrete boxes, including one identical
pair given in the two different representations. -/
theorem claim_C7_witness :
    calculate_iou (Bbox.listBox 0 0 2 2) (Bbox.dictBox 0 0 2 2) = 1 ∧
    calculate_iou (Bbox.listBox 0 0 1 1) (Bbox.listBox 5 5 6 6) = 0 ∧
    calculate_iou (Bbox.listBox 0 0 2 2) (Bbox.listBox 1 1 3 3) =
      calculate_iou (Bbox.listBox 1 1 3 3) (Bbox.listBox 0 0 2 2) := by
  refine ⟨?_, ?_, claim_C7.2.2 _ _⟩
  · exact claim_C7.1 (Bbox.listBox 0 0 2 2) (Bbox.dictBox 0 0 2 2) rfl rfl rfl rfl
      (by norm_num [Bbox.x1, Bbox.x2]) (by norm_num [Bbox.y1, Bbox.y2])
  · exact claim_C7.2.1 (Bbox.listBox 0 0 1 1) (Bbox.listBox 5 5 6 6)
      (Or.inl (by norm_num [Bbox.x1, Bbox.x2]))

/-- Counterexample to claim C7 as stated: the degenerate box with all
corners 0 satisfies x1 at most x2 and y1 at most y2, yet iou of the box
with itself is 0, not 1, through the zero-union special case. -/
theorem claim_C7_counterexample :
    (Bbox.listBox 0 0 0 0).x1 ≤ (Bbox.listBox 0 0 0 0).x2 ∧
    (Bbox.listBox 0 0 0 0).y1 ≤ (Bbox.listBox 0 0 0 0).y2 ∧
    calculate_iou (Bbox.listBox 0 0 0 0) (Bbox.listBox 0 0 0 0) = 0 ∧
    (0 : ℚ) ≠ 1 := by
  refine ⟨le_refl _, le_refl _, ?_, by norm_num⟩
  norm_num [calculate_iou, iouCore, Bbox.x1, Bbox.x2, Bbox.y1, Bbox.y2]

/-- Claim C8 (amended): when the frame set is large enough to enter the
clustering path and any detection of any frame lacks its class_name key,
the whole analysis aborts with the KeyError; the remaining well-formed
detections are not processed. -/
theorem claim_C8 (cfg : Config) (fds : List (List RawDetection))
    (hframes : ¬(fds = [] ∨ fds.length < cfg.min_frames_for_validation))
    (hbad : ∃ f ∈ fds, ∃ r ∈ f, r.class_name = none) :
    match_detections_E cfg fds = .error () := by
  unfold match_detections_E
  rw [if_neg hframes, requireFrames_error fds hbad]

/-- Counterexample to claim C8 as stated: a two-frame set whose second
frame holds a malformed detection next to well-formed ones makes the
whole call return an error instead of reporting the malformed detection
alone and processing the rest. -/
theorem claim_C8_counterexample :
    match_detections_E defaultConfig [[rawGood], [rawBad, rawGood]] = .error () := by
  norm_num [match_detections_E, defaultConfig, requireFrames, requireFrame,
    requireClassName, rawGood, rawBad]
  exact fun h => absurd h (by simp)

/-- Witness for the amended claim C8 at the same concrete input. -/
theorem claim_C8_witness :
    ¬(([[rawGood], [rawBad, rawGood]] : List (List RawDetection)) = [] ∨
      ([[rawGood], [rawBad, rawGood]] : List (List RawDetection)).length <
        defaultConfig.min_frames_for_validation) ∧
    match_detections_E defaultConfig [[rawGood], [rawBad, rawGood]] = .error () := by
  have hframes : ¬(([[rawGood], [rawBad, rawGood]] : List (List RawDetection)) = [] ∨
      ([[rawGood], [rawBad, rawGood]] : List (List RawDetection)).length <
        defaultConfig.min_frames_for_validation) := by
    push_neg
    exact ⟨by simp, by norm_num [defaultConfig]⟩
  refine ⟨hframes, ?_⟩
  exact claim_C8 defaultConfig [[rawGood], [rawBad, rawGood]] hframes
    ⟨[rawBad, rawGood], by simp, rawBad, by simp, rfl⟩

/-- Claim C9: the clusters form a partition of the input detections:
their concatenation is a permutation of the input (every detection,
including singletons, appears exactly once counting multiplicity) and the
indexed clusters are pairwise disjoint. -/
theorem claim_C9 (cfg : Config) (dets : List FrameDet) :
    ((cluster_detections cfg dets).flatten).Perm dets ∧
    (cluster_detections_idx cfg dets).Pairwise (fun c₁ c₂ => ∀ p ∈ c₁, p ∉ c₂) :=
  ⟨cluster_detections_flatten_perm cfg dets, cluster_detections_idx_disjoint cfg dets⟩

/-- Claim C10: aggregation reads class_id of the first member with a
defaulting get: a missing class_id yields 0 without error, a present one
is copied. -/
theorem claim_C10 (cfg : Config) (first : FrameDet) (rest : List FrameDet) :
    (first.det.class_id = none → (aggregate_cluster cfg (first :: rest)).class_id = 0) ∧
    (∀ k : ℤ, first.det.class_id = some k →
      (aggregate_cluster cfg (first :: rest)).class_id = k) := by
  constructor
  · intro h
    simp [aggregate_cluster, h]
  · intro k h
    simp [aggregate_cluster, h]

/-- Witness for claim C10 at a concrete singleton cluster without a
class_id key. -/
theorem claim_C10_witness :
    fdNoId.det.class_id = none ∧
    (aggregate_cluster defaultConfig [fdNoId]).class_id = 0 :=
  ⟨rfl, (claim_C10 defaultConfig fdNoId []).1 rfl⟩

end MultiFrame
